import Mathlib

/-!
Verification of the galilstage controller-session layer.

This file gives a shallow embedding of the protocol layer of the
galilstage repository (src/galilstage/commands.py and
src/galilstage/galilstage.py) and proves the specified properties of
command framing, chunked dispatch, configuration application and the
error-handling behaviour.

Python strings are modelled by Lean `String` (a list of characters in
this toolchain); Python byte strings by `List Nat`.  The serial side
effects of a call are reified as an explicit event trace (`Ev`): each
wire write, each fixed-pacing sleep and each bounded read appears as
one event, and the bytes delivered by the device for the k-th read of
the session are supplied by an environment function `env : Nat → List
Nat`.  Numeric configuration values (`waittime`) are modelled by `Rat`.
-/

namespace Galil

/-! ## Python string primitives

The helpers in this section model the Python string operations used by
the source: `str.split(';')`, `';'.join`, `str.split()` (whitespace),
`str.strip()`, `str.lower()`, and `bytes.decode('utf-8')` in both its
strict and `errors='ignore'` forms.
-/

/-- The characters removed by Python `str.strip()` (ASCII whitespace). -/
def pyIsSpace (c : Char) : Bool :=
  c = ' ' || c = '\t' || c = '\n' || c = '\r' || c = '\x0b' || c = '\x0c'

/-- Strip leading and trailing whitespace from a character list. -/
def stripList (cs : List Char) : List Char :=
  ((cs.dropWhile pyIsSpace).reverse.dropWhile pyIsSpace).reverse

/-- Model of Python `str.strip()`. -/
def pyStrip (s : String) : String :=
  String.mk (stripList s.data)

/-- Model of Python `str.lower()` (ASCII case folding). -/
def pyLower (s : String) : String :=
  String.mk (s.data.map Char.toLower)

/-- Split a character list at every `';'`; empty pieces are kept, and
the empty list yields one empty piece, as Python `split(';')` does. -/
def splitSemiL : List Char → List (List Char)
  | [] => [[]]
  | c :: cs =>
    if c = ';' then [] :: splitSemiL cs
    else
      match splitSemiL cs with
      | p :: ps => (c :: p) :: ps
      | [] => [[c]]

/-- Join character lists with `';'` (Python `';'.join`). -/
def joinSemiL : List (List Char) → List Char
  | [] => []
  | [p] => p
  | p :: q :: ps => p ++ ';' :: joinSemiL (q :: ps)

/-- Model of Python `command.split(';')`. -/
def pySplitSemi (s : String) : List String :=
  (splitSemiL s.data).map String.mk

/-- Model of Python `';'.join(segments)`. -/
def pyJoinSemi (l : List String) : String :=
  String.mk (joinSemiL (l.map String.data))


/-- Whitespace split accumulator: `splitWsAux cs acc` scans `cs` with the
current in-progress word `acc` held reversed. -/
def splitWsAux : List Char → List Char → List (List Char)
  | [], acc => if acc.isEmpty then [] else [acc.reverse]
  | c :: cs, acc =>
    if pyIsSpace c then
      if acc.isEmpty then splitWsAux cs [] else acc.reverse :: splitWsAux cs []
    else splitWsAux cs (c :: acc)

/-- Model of Python no-argument `str.split()`: split on runs of
whitespace, discarding empty pieces. -/
def pySplitWs (s : String) : List String :=
  (splitWsAux s.data []).map String.mk

/-- A UTF-8 continuation byte. -/
def utf8Cont (b : Nat) : Bool := 0x80 ≤ b && b ≤ 0xBF

/-- Try to decode one UTF-8 scalar whose lead byte is `b` and whose
continuation bytes come from `bs`; on success, return the character and
how many bytes of `bs` it consumed (RFC 3629: overlong encodings,
surrogates and values above U+10FFFF are rejected). -/
def utf8Try (b : Nat) (bs : List Nat) : Option (Char × Nat) :=
  if b ≤ 0x7F then some (Char.ofNat b, 0)
  else if 0xC2 ≤ b && b ≤ 0xDF then
    match bs with
    | b1 :: _ =>
      if utf8Cont b1 then
        some (Char.ofNat ((b - 0xC0) * 0x40 + (b1 - 0x80)), 1)
      else none
    | [] => none
  else if 0xE0 ≤ b && b ≤ 0xEF then
    match bs with
    | b1 :: b2 :: _ =>
      if (if b = 0xE0 then 0xA0 ≤ b1 && b1 ≤ 0xBF
          else if b = 0xED then 0x80 ≤ b1 && b1 ≤ 0x9F
          else utf8Cont b1) && utf8Cont b2 then
        some (Char.ofNat ((b - 0xE0) * 0x1000 + (b1 - 0x80) * 0x40 + (b2 - 0x80)), 2)
      else none
    | _ => none
  else if 0xF0 ≤ b && b ≤ 0xF4 then
    match bs with
    | b1 :: b2 :: b3 :: _ =>
      if (if b = 0xF0 then 0x90 ≤ b1 && b1 ≤ 0xBF
          else if b = 0xF4 then 0x80 ≤ b1 && b1 ≤ 0x8F
          else utf8Cont b1) && utf8Cont b2 && utf8Cont b3 then
        some (Char.ofNat ((b - 0xF0) * 0x40000 + (b1 - 0x80) * 0x1000 +
          (b2 - 0x80) * 0x40 + (b3 - 0x80)), 3)
      else none
    | _ => none
  else none

/-- Strict UTF-8 decoding with a step budget.  Every step consumes at
least the lead byte, so a budget of the byte count never runs out; the
budget only makes the recursion structural. -/
def utf8DecodeF : Nat → List Nat → Option (List Char)
  | _, [] => some []
  | 0, _ :: _ => none
  | fuel + 1, b :: bs =>
    match utf8Try b bs with
    | some cn => (utf8DecodeF fuel (bs.drop cn.2)).map (fun cs => cn.1 :: cs)
    | none => none

/-- Strict UTF-8 decoding of a byte list.  `none` models the
`UnicodeDecodeError` raised by Python `bytes.decode()`. -/
def utf8Decode (bs : List Nat) : Option (List Char) :=
  utf8DecodeF bs.length bs

/-- Tolerant UTF-8 decoding with a step budget (see `utf8DecodeF`). -/
def utf8IgnoreF : Nat → List Nat → List Char
  | _, [] => []
  | 0, _ :: _ => []
  | fuel + 1, b :: bs =>
    match utf8Try b bs with
    | some cn => cn.1 :: utf8IgnoreF fuel (bs.drop cn.2)
    | none => utf8IgnoreF fuel bs

/-- Tolerant UTF-8 decoding, skipping bytes at which strict decoding
would fail (Python `bytes.decode(errors='ignore')`).  Used only by the
spec-modelled transport read. -/
def utf8Ignore (bs : List Nat) : List Char :=
  utf8IgnoreF bs.length bs

/-! ## Data model

`GalilStage.__init__` stores a port name, a serial handle (`None` until
`connect`) and the loaded configuration.  The `[galil]` table of the
TOML configuration is modelled by `GalilCfg`: every key that
`command_config` / `command` reads from it is a field, optional keys as
`Option` (absence of the key is `none`).
-/

/-- The observable side effects of a call: wire writes, fixed-pacing
sleeps (seconds) and bounded reads. -/
inductive Ev where
  | write (data : String)
  | sleep (secs : Rat)
  | read (maxBytes : Nat)
deriving DecidableEq, Repr

/-- The error kinds of the protocol layer (spec section 7). -/
inductive Err where
  | notConnected
  | encodingError
deriving DecidableEq, Repr

/-- A pyserial handle: only its open/closed flag matters here. -/
structure SerialConn where
  is_open : Bool
deriving DecidableEq, Repr

/-- The `[galil]` section of the configuration file. -/
structure GalilCfg where
  waittime : Rat
  verbose : Bool
  confcomm : Option String
  initcommA : Option String
  initcommB : Option String
  initcommC : Option String
  initcommD : Option String
  indexcomm : Option String
  maxspeed : Option Int
  linaxis : Option String
  angaxis : Option String
deriving DecidableEq, Repr

/-- Session state of a `GalilStage` object. -/
structure Session where
  port : Option String
  ser : Option SerialConn
  cfg : GalilCfg
deriving DecidableEq, Repr

/-- Python `self.ser and self.ser.is_open` (a pyserial object is always
truthy, so only `None` is falsy). -/
def serOpen (st : Session) : Bool :=
  match st.ser with
  | some c => c.is_open
  | none => false

instance {ε α : Type} [DecidableEq ε] [DecidableEq α] : DecidableEq (Except ε α) :=
  fun a b =>
    match a, b with
    | Except.ok x, Except.ok y =>
      if h : x = y then isTrue (by rw [h]) else isFalse (fun hh => h (Except.ok.inj hh))
    | Except.error x, Except.error y =>
      if h : x = y then isTrue (by rw [h]) else isFalse (fun hh => h (Except.error.inj hh))
    | Except.ok _, Except.error _ => isFalse (fun hh => Except.noConfusion hh)
    | Except.error _, Except.ok _ => isFalse (fun hh => Except.noConfusion hh)

/-- Result of one protocol-layer call: the returned value or raised
error, the emitted event trace, and the session read counter after the
call (the index the next device read will consume from `env`). -/
structure Out (α : Type) where
  res : Except Err α
  trace : List Ev
  reads : Nat
deriving DecidableEq, Repr

/-- `GalilStage.send_command` (commands.py lines 111-116; the effective
definition in galilstage.py lines 82-87 is identical): raise if not
connected, write `cmd.strip() + '\r'`, read up to 1000 bytes and decode
them strictly, returning the stripped text.  There is no pacing sleep
in this method, and the strict decode raises on undecodable bytes. -/
def send_command (st : Session) (env : Nat → List Nat) (cmd : String) (k : Nat) :
    Out String :=
  if serOpen st = false then ⟨Except.error Err.notConnected, [], k⟩
  else
    match utf8Decode (env k) with
    | none =>
      ⟨Except.error Err.encodingError, [Ev.write (pyStrip cmd ++ "\r"), Ev.read 1000], k + 1⟩
    | some cs =>
      ⟨Except.ok (pyStrip (String.mk cs)), [Ev.write (pyStrip cmd ++ "\r"), Ev.read 1000], k + 1⟩

/-- `GalilStage.disconnect` (commands.py lines 22-27, identical in
galilstage.py lines 28-33): close the handle if there is one and drop
it; a no-op when the handle is already gone. -/
def disconnect (st : Session) : Session :=
  if st.ser.isSome then { st with ser := none } else st

/-! ## Command dispatch (`GalilStage.command`, commands.py lines 29-49)

`command` splits the logical command at semicolons.  More than 3
segments: recursively send the first 3 joined, sleep `3 * waittime`,
recurse on the sublist from index 1, and concatenate the response
texts.  At most 3 segments: one wire transaction `write(command +
'\n\r')`, `sleep(waittime)`, one `read()`.

The `write`/`read` transport methods that `command` calls are not
defined anywhere in the repository; they are modelled from the spec
(section 4.1 `write_raw` fails with `NotConnected` when there is no
open connection and otherwise puts the bytes on the wire; section 4.2
step 3: one read of 1000 bytes, decoded tolerantly and trimmed).

The recursion is performed on the segment list.  This is faithful to
the source's join-then-resplit because every recursive call joins a
sublist of semicolon-free pieces of the original split, and
`pySplitSemi_pyJoinSemi` proves that resplitting such a join restores
exactly that sublist.  The `self.port is None` guard of the source is
re-checked at each recursion level, as in the source; the `verbose`
logging branch touches no wire state and is not modelled. -/
def commandAux (st : Session) (env : Nat → List Nat) (segs : List String) (k : Nat) :
    Out String :=
    if st.port = none then
      ⟨Except.ok "Unable to send command, no open connection", [], k⟩
    else if _h3 : 3 < segs.length then
      let o1 := commandAux st env (segs.take 3) k
      match o1.res with
      | Except.error e => ⟨Except.error e, o1.trace, o1.reads⟩
      | Except.ok m1 =>
        let o2 := commandAux st env (segs.drop 1) o1.reads
        match o2.res with
        | Except.error e =>
          ⟨Except.error e, o1.trace ++ Ev.sleep (3 * st.cfg.waittime) :: o2.trace, o2.reads⟩
        | Except.ok m2 =>
          ⟨Except.ok (m1 ++ m2), o1.trace ++ Ev.sleep (3 * st.cfg.waittime) :: o2.trace,
           o2.reads⟩
    else
      if serOpen st = false then ⟨Except.error Err.notConnected, [], k⟩
      else
        ⟨Except.ok (pyStrip (String.mk (utf8Ignore (env k)))),
         [Ev.write (pyJoinSemi segs ++ "\n\r"), Ev.sleep st.cfg.waittime, Ev.read 1000],
         k + 1⟩
termination_by segs.length
decreasing_by
  · have h := List.length_take_le 3 segs
    omega
  · rw [List.length_drop]; omega

/-- `GalilStage.command`: dispatch a logical command string. -/
def command (st : Session) (env : Nat → List Nat) (cmd : String) (k : Nat) : Out String :=
  commandAux st env (pySplitSemi cmd) k

/-- The wire transactions the recursive split produces, as segment
lists: the first three segments, then the chunks of the sublist
starting at index 1; a command of at most 3 segments is one chunk. -/
def chunks (segs : List String) : List (List String) :=
  if 3 < segs.length then segs.take 3 :: chunks (segs.drop 1) else [segs]
termination_by segs.length
decreasing_by rw [List.length_drop]; omega

/-- The decoded, trimmed response text of the transaction consuming the
k-th device read. -/
def txResp (env : Nat → List Nat) (k : Nat) : String :=
  pyStrip (String.mk (utf8Ignore (env k)))

/-- Concatenation of the next `n` per-transaction responses, in call
order, starting with read index `k`. -/
def runResp (env : Nat → List Nat) : Nat → Nat → String
  | _, 0 => ""
  | k, n + 1 => txResp env k ++ runResp env (k + 1) n

/-- The event trace of one wire transaction of the dispatch layer. -/
def txTrace (w : Rat) (cmd : String) : List Ev :=
  [Ev.write (cmd ++ "\n\r"), Ev.sleep w, Ev.read 1000]

/-- The event trace of a chunked dispatch: one transaction per chunk,
with a `3 * waittime` sleep between consecutive transactions. -/
def runTrace (w : Rat) : List (List String) → List Ev
  | [] => []
  | c :: rest =>
    txTrace w (pyJoinSemi c) ++
      (if rest.isEmpty then [] else [Ev.sleep (3 * w)]) ++ runTrace w rest

/-- The write payloads of a trace, in order. -/
def writesOf (t : List Ev) : List String :=
  t.filterMap fun e =>
    match e with
    | Ev.write s => some s
    | _ => none

/-! ## Configuration application (`GalilStage.command_config`,
commands.py lines 179-217)

The method sends a sequence of strings through `send_command`,
discarding every response, so its behaviour is reified as the ordered
list of strings passed to `send_command` (`commandConfigSteps`) and a
sequential dispatch of that list (`sendSeq`).  The `RuntimeError` guard
for a missing `[galil]` table is outside the model: a `Session` always
carries its configuration.  The `print` calls touch no wire state. -/

/-- Step 1 of `command_config`: `galil_cfg.get('confcomm', "").strip()`,
sent when non-empty (as its stripped form). -/
def confPart (cfg : GalilCfg) : List String :=
  let confcomm := pyStrip (cfg.confcomm.getD "")
  if confcomm ≠ "" then [confcomm] else []

/-- One axis of step 2 of `command_config`: present and non-blank
`initcomm<axis>` values are sent stripped. -/
def initAxisPart (v : Option String) : List String :=
  match v with
  | some s => if pyStrip s ≠ "" then [pyStrip s] else []
  | none => []

/-- Step 2 of `command_config`: per-axis init commands in the fixed
order A, B, C, D. -/
def initPart (cfg : GalilCfg) : List String :=
  initAxisPart cfg.initcommA ++ initAxisPart cfg.initcommB ++
    initAxisPart cfg.initcommC ++ initAxisPart cfg.initcommD

/-- Step 3 of `command_config`: `indexcomm`, sent unstripped when
present and non-blank. -/
def indexPart (cfg : GalilCfg) : List String :=
  match cfg.indexcomm with
  | some s => if pyStrip s ≠ "" then [s] else []
  | none => []

/-- The `comm` string built by step 4 of `command_config`:
`SP<axis>=<maxspeed>;` appended for every `linaxis` token, then for
every `angaxis` token. -/
def speedComm (cfg : GalilCfg) (ms : Int) : String :=
  let c1 := (pySplitWs (cfg.linaxis.getD "")).foldl
    (fun acc a => acc ++ "SP" ++ a ++ "=" ++ toString ms ++ ";") ""
  (pySplitWs (cfg.angaxis.getD "")).foldl
    (fun acc a => acc ++ "SP" ++ a ++ "=" ++ toString ms ++ ";") c1

/-- Step 4 of `command_config`: when `maxspeed` is present and the
built string is non-empty, send it with the trailing `';'` removed
(`comm[:-1]`). -/
def speedPart (cfg : GalilCfg) : List String :=
  match cfg.maxspeed with
  | some ms =>
    let comm := speedComm cfg ms
    if comm ≠ "" then [comm.dropRight 1] else []
  | none => []

/-- `GalilStage.command_config`, reified as the ordered list of strings
it passes to `send_command`, mirroring the source's control flow. -/
def commandConfigSteps (cfg : GalilCfg) : List String :=
  (let confcomm := pyStrip (cfg.confcomm.getD "")
   if confcomm ≠ "" then [confcomm] else []) ++
  (match cfg.initcommA with
   | some s => if pyStrip s ≠ "" then [pyStrip s] else []
   | none => []) ++
  (match cfg.initcommB with
   | some s => if pyStrip s ≠ "" then [pyStrip s] else []
   | none => []) ++
  (match cfg.initcommC with
   | some s => if pyStrip s ≠ "" then [pyStrip s] else []
   | none => []) ++
  (match cfg.initcommD with
   | some s => if pyStrip s ≠ "" then [pyStrip s] else []
   | none => []) ++
  (match cfg.indexcomm with
   | some s => if pyStrip s ≠ "" then [s] else []
   | none => []) ++
  (match cfg.maxspeed with
   | some ms =>
     let comm := (pySplitWs (cfg.angaxis.getD "")).foldl
       (fun acc a => acc ++ "SP" ++ a ++ "=" ++ toString ms ++ ";")
       ((pySplitWs (cfg.linaxis.getD "")).foldl
         (fun acc a => acc ++ "SP" ++ a ++ "=" ++ toString ms ++ ";") "")
     if comm ≠ "" then [comm.dropRight 1] else []
   | none => [])

/-- Dispatch a list of commands through `send_command` in order,
stopping at the first raised error (as sequential Python statements
would). -/
def sendSeq (st : Session) (env : Nat → List Nat) : List String → Nat → Out Unit
  | [], k => ⟨Except.ok (), [], k⟩
  | c :: cs, k =>
    let o := send_command st env c k
    match o.res with
    | Except.error e => ⟨Except.error e, o.trace, o.reads⟩
    | Except.ok _ =>
      let o2 := sendSeq st env cs o.reads
      ⟨o2.res, o.trace ++ o2.trace, o2.reads⟩

/-- Wire behaviour of one `command_config()` call. -/
def commandConfigRun (st : Session) (env : Nat → List Nat) (k : Nat) : Out Unit :=
  sendSeq st env (commandConfigSteps st.cfg) k

/-! ## Motion wrappers and the raw-command builder -/

/-- `GalilStage.move_absolute` (commands.py lines 119-122, identical in
galilstage.py lines 90-93): build `PA <axis>=<pos>;BG <axis>` and pass
it to `send_command`. -/
def move_absolute (st : Session) (env : Nat → List Nat) (axis : String) (pos : Int)
    (k : Nat) : Out String :=
  send_command st env ("PA " ++ axis ++ "=" ++ toString pos ++ ";BG " ++ axis) k

/-- `GalilStage.command_rawsignal` (galilstage.py lines 160-170): the
string the call passes to `send_command`.  The source's first statement
`cmd = f'{command}{axis}'` is dead: the following `if/elif/else` chain
ends in an unconditional `else` and therefore reassigns `cmd` on every
path, which this definition reproduces.  Python truthiness of the
`command` and `value` strings is non-emptiness (`None` is falsy). -/
def command_rawsignal (command : String) (axis value : Option String) : String :=
  if axis.isSome ∧ value.isSome then
    command ++ axis.getD "" ++ " = " ++ value.getD ""
  else if command ≠ "" ∧ value.getD "" ≠ "" then
    command ++ " = " ++ value.getD ""
  else command

/-! ## `GalilStage.setvalue` (commands.py lines 51-74)

Configuration entries hold Python values of type bool, int, float or
str; `PyVal` models that dynamic typing (floats as exact rationals).
`type(valorig)(value)` is `int(value)` / `float(value)` / `str(value)`
depending on the entry's current type; the two numeric conversions are
modelled on finite ASCII decimal forms. -/

/-- A Python value stored in a configuration entry. -/
inductive PyVal where
  | pbool (b : Bool)
  | pint (n : Int)
  | pfloat (q : Rat)
  | pstr (s : String)
deriving DecidableEq, Repr

/-- The numeric value of a digit string, `none` if empty or not all
digits. -/
def digitsVal (cs : List Char) : Option Nat :=
  if cs.isEmpty then none
  else
    cs.foldl
      (fun acc c =>
        match acc with
        | some a => if c.isDigit then some (a * 10 + (c.toNat - 48)) else none
        | none => none)
      (some 0)

/-- Model of Python `int(string)`: optional surrounding whitespace,
optional sign, one or more ASCII digits.  (Underscore separators and
non-ASCII digits accepted by Python are not modelled.) -/
def pyToInt (s : String) : Option Int :=
  match stripList s.data with
  | '+' :: rest => (digitsVal rest).map Int.ofNat
  | '-' :: rest => (digitsVal rest).map (fun n => -(Int.ofNat n))
  | cs => (digitsVal cs).map Int.ofNat

/-- The value of an all-digit string. -/
def natOfDigits (cs : List Char) : Nat :=
  cs.foldl (fun a c => a * 10 + (c.toNat - 48)) 0

/-- Model of Python `float(string)` on finite decimal forms: optional
surrounding whitespace, optional sign, digits with an optional decimal
point (at least one digit on one side), and an optional exponent.
(`inf`/`nan` and hexadecimal forms are not modelled; the value is kept
exact as a rational.) -/
def pyToFloat (s : String) : Option Rat :=
  let cs := stripList s.data
  let sr : Int × List Char :=
    match cs with
    | '+' :: r => (1, r)
    | '-' :: r => (-1, r)
    | r => (1, r)
  let ip := sr.2.takeWhile Char.isDigit
  let r1 := sr.2.dropWhile Char.isDigit
  let fr : List Char × List Char :=
    match r1 with
    | '.' :: r2 => (r2.takeWhile Char.isDigit, r2.dropWhile Char.isDigit)
    | _ => ([], r1)
  let expOpt : Option Int :=
    match fr.2 with
    | [] => some 0
    | c :: r4 =>
      if c = 'e' ∨ c = 'E' then
        let es : Int × List Char :=
          match r4 with
          | '+' :: r5 => (1, r5)
          | '-' :: r5 => (-1, r5)
          | r5 => (1, r5)
        if !es.2.isEmpty && es.2.all Char.isDigit then
          some (es.1 * Int.ofNat (natOfDigits es.2))
        else none
      else none
  match expOpt with
  | none => none
  | some e =>
    if ip.isEmpty && fr.1.isEmpty then none
    else
      some ((sr.1 : Rat) *
        ((Int.ofNat (natOfDigits ip) : Rat) +
          (Int.ofNat (natOfDigits fr.1) : Rat) / ((10 : Rat) ^ fr.1.length)) *
        (10 : Rat) ^ e)

/-- The word lists `setvalue` recognises for bool entries. -/
def booltrue : List String := ["t", "true", "yes", "on", "1"]

/-- The false-words of `setvalue`. -/
def boolfalse : List String := ["f", "false", "no", "off", "0"]

/-- `GalilStage.setvalue` (commands.py lines 51-74), acting on the
addressed entry: the pair is the entry's value after the call and the
returned message (empty on success).  The dictionary assignment
`self.config[section][key] = ...` is represented by the first
component; on error the entry is unchanged. -/
def setvalue (valorig : PyVal) (value : String) : PyVal × String :=
  match valorig with
  | PyVal.pbool _ =>
    if pyLower value ∈ booltrue then (PyVal.pbool true, "")
    else if pyLower value ∈ boolfalse then (PyVal.pbool false, "")
    else (valorig, "\"" ++ value ++ "\" is invalid for type bool")
  | PyVal.pint _ =>
    match pyToInt value with
    | some n => (PyVal.pint n, "")
    | none => (valorig, "\"" ++ value ++ "\" is invalid type for int")
  | PyVal.pfloat _ =>
    match pyToFloat value with
    | some q => (PyVal.pfloat q, "")
    | none => (valorig, "\"" ++ value ++ "\" is invalid type for float")
  | PyVal.pstr _ => (PyVal.pstr value, "")

/-! ## Concrete fixtures for closed instances -/

/-- A minimal configuration (waittime 0.05 s, verbose off, no optional
keys). -/
def cfgW : GalilCfg :=
  ⟨1 / 20, false, none, none, none, none, none, none, none, none, none⟩

/-- A connected session. -/
def stW : Session := ⟨some "/dev/ttyUSB0", some ⟨true⟩, cfgW⟩

/-- A session whose port is set but whose connection was never opened. -/
def stClosed : Session := ⟨some "/dev/ttyUSB0", none, cfgW⟩

/-- A session with neither port nor connection. -/
def stPortless : Session := ⟨none, none, cfgW⟩

/-- A device that always answers the two bytes of "OK". -/
def envW : Nat → List Nat := fun _ => [79, 75]

/-- A device that answers a byte that is not valid UTF-8. -/
def envBad : Nat → List Nat := fun _ => [255]

/-- The configuration of the C5 boundary check: a 4-token `linaxis`. -/
def cfg5 : GalilCfg :=
  ⟨1 / 20, false, none, none, none, none, none, none, some 500, some "A B C D", some ""⟩

/-- A connected session carrying `cfg5`. -/
def st5 : Session := ⟨some "/dev/ttyUSB0", some ⟨true⟩, cfg5⟩

/-- The spec's maxspeed example: linaxis "A B", angaxis "C",
maxspeed 500. -/
def cfg5b : GalilCfg :=
  ⟨1 / 20, false, none, none, none, none, none, none, some 500, some "A B", some "C"⟩

/-- A configuration with `confcomm` absent but a later step's key
(`initcommA`) present. -/
def cfg6 : GalilCfg :=
  ⟨1 / 20, false, none, some " SH A ", none, none, none, none, none, none, none⟩

/-! ## Properties of the semicolon split/join -/

theorem splitSemiL_ne_nil (cs : List Char) : splitSemiL cs ≠ [] := by
  induction cs with
  | nil => simp [splitSemiL]
  | cons c cs ih =>
    simp only [splitSemiL]
    split
    · simp
    · split
      · simp
      · simp

theorem joinSemiL_splitSemiL (cs : List Char) : joinSemiL (splitSemiL cs) = cs := by
  induction cs with
  | nil => rfl
  | cons c cs ih =>
    simp only [splitSemiL]
    split
    · rename_i hc
      rcases hp : splitSemiL cs with _ | ⟨p, ps⟩
      · exact absurd hp (splitSemiL_ne_nil cs)
      · rw [hp] at ih
        simp only [joinSemiL, hc]
        rw [ih]
        simp
    · rcases hp : splitSemiL cs with _ | ⟨p, ps⟩
      · exact absurd hp (splitSemiL_ne_nil cs)
      · rw [hp] at ih
        cases ps with
        | nil => simpa [joinSemiL] using congrArg (c :: ·) ih
        | cons q ps' => simpa [joinSemiL] using congrArg (c :: ·) ih

theorem splitSemiL_no_semi (p : List Char) (h : ';' ∉ p) : splitSemiL p = [p] := by
  induction p with
  | nil => rfl
  | cons c cs ih =>
    simp only [List.mem_cons, not_or] at h
    have hc : ¬ c = ';' := fun hcc => h.1 hcc.symm
    simp only [splitSemiL, if_neg hc, ih h.2]

theorem splitSemiL_append (p r : List Char) (h : ';' ∉ p) :
    splitSemiL (p ++ ';' :: r) = p :: splitSemiL r := by
  induction p with
  | nil => simp [splitSemiL]
  | cons c cs ih =>
    simp only [List.mem_cons, not_or] at h
    have hc : ¬ c = ';' := fun hcc => h.1 hcc.symm
    simp only [List.cons_append, splitSemiL, if_neg hc, List.append_eq]
    rw [ih h.2]

theorem splitSemiL_joinSemiL (ps : List (List Char)) (hne : ps ≠ [])
    (h : ∀ p ∈ ps, ';' ∉ p) : splitSemiL (joinSemiL ps) = ps := by
  induction ps with
  | nil => exact absurd rfl hne
  | cons p ps ih =>
    cases ps with
    | nil =>
      simp only [joinSemiL]
      exact splitSemiL_no_semi p (h p (by simp))
    | cons q ps' =>
      simp only [joinSemiL]
      rw [splitSemiL_append p _ (h p (by simp))]
      rw [ih (by simp) (fun x hx => h x (List.mem_cons_of_mem p hx))]

/-- Elements produced by the semicolon split never contain `';'`. -/
theorem splitSemiL_mem_no_semi (cs : List Char) :
    ∀ p ∈ splitSemiL cs, ';' ∉ p := by
  induction cs with
  | nil =>
    intro p hp
    rw [show splitSemiL [] = [[]] from rfl] at hp
    simp only [List.mem_singleton] at hp
    simp [hp]
  | cons c cs ih =>
    intro p hp
    simp only [splitSemiL] at hp
    by_cases hc : c = ';'
    · rw [if_pos hc] at hp
      rcases List.mem_cons.mp hp with h1 | h2
      · simp [h1]
      · exact ih p h2
    · rw [if_neg hc] at hp
      rcases hq : splitSemiL cs with _ | ⟨q, qs⟩
      · exact absurd hq (splitSemiL_ne_nil cs)
      · rw [hq] at hp
        rcases List.mem_cons.mp hp with h1 | h2
        · subst h1
          intro hmem
          rcases List.mem_cons.mp hmem with h3 | h4
          · exact hc h3.symm
          · exact ih q (hq ▸ List.mem_cons_self q qs) h4
        · exact ih p (hq ▸ List.mem_cons_of_mem q h2)

/-- Joining the pieces of a semicolon split restores the string
(Python: `';'.join(s.split(';')) == s`). -/
theorem pyJoinSemi_pySplitSemi (s : String) : pyJoinSemi (pySplitSemi s) = s := by
  cases s with
  | mk data =>
    simp only [pySplitSemi, pyJoinSemi, List.map_map]
    have hfun : (String.data ∘ String.mk) = id := rfl
    rw [hfun, List.map_id, joinSemiL_splitSemiL]

/-- Splitting a semicolon join restores the pieces when no piece
contains a semicolon (the situation for every recursive call of
`GalilStage.command`). -/
theorem pySplitSemi_pyJoinSemi (l : List String) (hne : l ≠ [])
    (h : ∀ s ∈ l, ';' ∉ s.data) : pySplitSemi (pyJoinSemi l) = l := by
  simp only [pySplitSemi, pyJoinSemi]
  rw [splitSemiL_joinSemiL (l.map String.data)
      (by simpa using hne)
      (by intro p hp
          rcases List.mem_map.mp hp with ⟨s, hs, rfl⟩
          exact h s hs)]
  have hfun : (String.mk ∘ String.data) = id := funext fun s => by cases s; rfl
  rw [List.map_map, hfun, List.map_id]

theorem chunks_ne_nil (segs : List String) : chunks segs ≠ [] := by
  rw [chunks]
  split
  · simp
  · simp

theorem string_append_empty (s : String) : s ++ "" = s := by
  apply String.ext
  simp [String.data_append]

/-- Characterization of a connected dispatch run: the result is ok, the
trace is one transaction per chunk separated by `3 * waittime` sleeps,
the response is the concatenation of the per-transaction responses in
call order, and one device read is consumed per chunk. -/
theorem commandAux_run (st : Session) (env : Nat → List Nat)
    (hser : serOpen st = true) (hport : ¬ st.port = none) :
    ∀ (n : Nat) (segs : List String) (k : Nat), segs.length = n →
      commandAux st env segs k =
        ⟨Except.ok (runResp env k (chunks segs).length),
         runTrace st.cfg.waittime (chunks segs),
         k + (chunks segs).length⟩ := by
  intro n
  induction n using Nat.strong_induction_on with
  | _ n ih =>
    intro segs k hlen
    by_cases h3 : 3 < segs.length
    · have hlen3 : (segs.take 3).length = 3 := by
        rw [List.length_take]
        omega
      have h1 := ih 3 (by omega) (segs.take 3) k hlen3
      have hlend : (segs.drop 1).length = n - 1 := by
        rw [List.length_drop]
        omega
      have h2 := ih (n - 1) (by omega) (segs.drop 1) (k + 1) hlend
      have hc1 : chunks (segs.take 3) = [segs.take 3] := by
        rw [chunks, if_neg (by rw [hlen3]; omega)]
      rw [hc1] at h1
      simp only [List.length_cons, List.length_nil] at h1
      have hcs : chunks segs = segs.take 3 :: chunks (segs.drop 1) := by
        rw [chunks, if_pos h3]
      obtain ⟨c, cs, hcc⟩ : ∃ c cs, chunks (segs.drop 1) = c :: cs := by
        rcases hx : chunks (segs.drop 1) with _ | ⟨c, cs⟩
        · exact absurd hx (chunks_ne_nil _)
        · exact ⟨c, cs, rfl⟩
      rw [commandAux, if_neg hport, dif_pos h3]
      simp only [h1]
      simp only [runResp, runTrace, txTrace, List.isEmpty_nil, List.append_nil,
        List.nil_append, string_append_empty]
      simp only [h2]
      rw [hcs, hcc]
      simp only [runResp, runTrace, txTrace, List.length_cons, List.isEmpty_cons,
        List.isEmpty_nil, List.append_nil, List.nil_append, string_append_empty]
      simp only [Out.mk.injEq, true_and, and_true]
      refine ⟨?_, by omega⟩
      simp [List.append_assoc]
    · rw [commandAux, if_neg hport, dif_neg h3, hser]
      have hcs : chunks segs = [segs] := by
        rw [chunks, if_neg h3]
      rw [hcs]
      simp only [runResp, runTrace, txTrace, List.length_cons, List.length_nil,
        List.isEmpty_nil, List.append_nil, List.nil_append, string_append_empty]
      simp [txResp]

/-- A disconnected dispatch whose port is set always raises
`NotConnected` out of the (spec-modelled) transport write, before any
event reaches the trace. -/
theorem commandAux_notConn (st : Session) (env : Nat → List Nat)
    (hser : serOpen st = false) (hport : ¬ st.port = none) :
    ∀ (n : Nat) (segs : List String) (k : Nat), segs.length = n →
      commandAux st env segs k = ⟨Except.error Err.notConnected, [], k⟩ := by
  intro n
  induction n using Nat.strong_induction_on with
  | _ n ih =>
    intro segs k hlen
    by_cases h3 : 3 < segs.length
    · have hlen3 : (segs.take 3).length = 3 := by
        rw [List.length_take]
        omega
      have h1 := ih 3 (by omega) (segs.take 3) k hlen3
      rw [commandAux, if_neg hport, dif_pos h3]
      simp only [h1]
    · rw [commandAux, if_neg hport, dif_neg h3, hser]
      simp

/-- C1: for every logical command with more than 3 semicolon-delimited
segments, dispatch sends the first 3 segments as one wire transaction,
sleeps `3 × waittime`, then recurses on the sublist starting at index
1; the segment at index 1 therefore appears in the first two
consecutive transactions, and the returned response is the
concatenation of the per-transaction responses in call order. -/
theorem claim1_split_overlap (st : Session) (env : Nat → List Nat) (cmd : String) (k : Nat)
    (hser : serOpen st = true) (hport : ¬ st.port = none)
    (h3 : 3 < (pySplitSemi cmd).length) :
    command st env cmd k =
      ⟨Except.ok (runResp env k (chunks (pySplitSemi cmd)).length),
       txTrace st.cfg.waittime (pyJoinSemi ((pySplitSemi cmd).take 3)) ++
         Ev.sleep (3 * st.cfg.waittime) ::
           runTrace st.cfg.waittime (chunks ((pySplitSemi cmd).drop 1)),
       k + (chunks (pySplitSemi cmd)).length⟩ ∧
    chunks (pySplitSemi cmd) =
      (pySplitSemi cmd).take 3 :: chunks ((pySplitSemi cmd).drop 1) ∧
    ∃ s1, (pySplitSemi cmd)[1]? = some s1 ∧
      s1 ∈ (pySplitSemi cmd).take 3 ∧
      ∃ c1 rest, chunks ((pySplitSemi cmd).drop 1) = c1 :: rest ∧
        c1.head? = some s1 := by
  have hcs : chunks (pySplitSemi cmd) =
      (pySplitSemi cmd).take 3 :: chunks ((pySplitSemi cmd).drop 1) := by
    rw [chunks, if_pos h3]
  refine ⟨?_, hcs, ?_⟩
  · have hrun := commandAux_run st env hser hport (pySplitSemi cmd).length
      (pySplitSemi cmd) k rfl
    unfold command
    rw [hrun, hcs]
    obtain ⟨c1, rest, hcc⟩ :
        ∃ c1 rest, chunks ((pySplitSemi cmd).drop 1) = c1 :: rest := by
      rcases hx : chunks ((pySplitSemi cmd).drop 1) with _ | ⟨c1, rest⟩
      · exact absurd hx (chunks_ne_nil _)
      · exact ⟨c1, rest, rfl⟩
    rw [hcc]
    simp [runTrace, txTrace, List.append_assoc]
  · generalize hg : pySplitSemi cmd = segs at h3 ⊢
    rcases segs with _ | ⟨s0, l1⟩
    · simp at h3
    rcases l1 with _ | ⟨s1, l2⟩
    · simp at h3
    refine ⟨s1, by simp, by simp, ?_⟩
    simp only [List.drop_succ_cons, List.drop_zero]
    rw [chunks]
    split
    · exact ⟨_, _, rfl, by simp⟩
    · exact ⟨_, _, rfl, rfl⟩

/-- C1 witness: the 4-segment command "a;b;c;d" on a connected
session. -/
theorem claim1_witness :
    serOpen stW = true ∧ ¬ stW.port = none ∧ 3 < (pySplitSemi "a;b;c;d").length ∧
    (command stW envW "a;b;c;d" 0 =
      ⟨Except.ok (runResp envW 0 (chunks (pySplitSemi "a;b;c;d")).length),
       txTrace stW.cfg.waittime (pyJoinSemi ((pySplitSemi "a;b;c;d").take 3)) ++
         Ev.sleep (3 * stW.cfg.waittime) ::
           runTrace stW.cfg.waittime (chunks ((pySplitSemi "a;b;c;d").drop 1)),
       0 + (chunks (pySplitSemi "a;b;c;d")).length⟩ ∧
     chunks (pySplitSemi "a;b;c;d") =
       (pySplitSemi "a;b;c;d").take 3 :: chunks ((pySplitSemi "a;b;c;d").drop 1) ∧
     ∃ s1, (pySplitSemi "a;b;c;d")[1]? = some s1 ∧
       s1 ∈ (pySplitSemi "a;b;c;d").take 3 ∧
       ∃ c1 rest, chunks ((pySplitSemi "a;b;c;d").drop 1) = c1 :: rest ∧
         c1.head? = some s1) :=
  ⟨by decide, by decide, by decide,
   claim1_split_overlap stW envW "a;b;c;d" 0 (by decide) (by decide) (by decide)⟩

/-- C2: a logical command with at most 3 segments is sent as exactly
one write of the command plus terminator and one read of at most 1000
bytes, separated by a `waittime` sleep, and returns the decoded,
trimmed response. -/
theorem claim2_short_command (st : Session) (env : Nat → List Nat) (cmd : String)
    (k : Nat) (hser : serOpen st = true) (hport : ¬ st.port = none)
    (hlen : (pySplitSemi cmd).length ≤ 3) :
    command st env cmd k =
      ⟨Except.ok (pyStrip (String.mk (utf8Ignore (env k)))),
       [Ev.write (cmd ++ "\n\r"), Ev.sleep st.cfg.waittime, Ev.read 1000], k + 1⟩ := by
  have h3 : ¬ 3 < (pySplitSemi cmd).length := by omega
  unfold command
  rw [commandAux, if_neg hport, dif_neg h3, hser, pyJoinSemi_pySplitSemi]
  simp

/-- C2 witness: the 1-segment command "TP A" on a connected session. -/
theorem claim2_witness :
    serOpen stW = true ∧ ¬ stW.port = none ∧ (pySplitSemi "TP A").length ≤ 3 ∧
    command stW envW "TP A" 0 =
      ⟨Except.ok (pyStrip (String.mk (utf8Ignore (envW 0)))),
       [Ev.write ("TP A" ++ "\n\r"), Ev.sleep stW.cfg.waittime, Ev.read 1000], 0 + 1⟩ :=
  ⟨by decide, by decide, by decide,
   claim2_short_command stW envW "TP A" 0 (by decide) (by decide) (by decide)⟩

/-- C3 counterexample: a session with no open connection (port `None`,
handle `None`).  `command` returns the string "Unable to send command,
no open connection" as an ordinary successful response: it does not
fail with `NotConnected` as the claim requires of every
command-sending operation. -/
theorem claim3_counterexample :
    serOpen stPortless = false ∧
    command stPortless envW "TP A" 0 =
      ⟨Except.ok "Unable to send command, no open connection", [], 0⟩ ∧
    (command stPortless envW "TP A" 0).res ≠ Except.error Err.notConnected := by
  have h : command stPortless envW "TP A" 0 =
      ⟨Except.ok "Unable to send command, no open connection", [], 0⟩ := by
    unfold command
    rw [commandAux, if_pos (show stPortless.port = none from rfl)]
  exact ⟨by decide, h, by rw [h]; simp⟩

/-- C3 (amended): with no open connection, `send_command` fails fast
with `NotConnected` and performs no write; `command` does the same when
the port is set (the error coming from the spec-modelled transport
write, still with an empty trace), but with port `None` it instead
returns the fixed message string as an ordinary response, also with no
write. -/
theorem claim3_amended (st : Session) (env : Nat → List Nat) (cmd : String) (k : Nat)
    (hser : serOpen st = false) :
    send_command st env cmd k = ⟨Except.error Err.notConnected, [], k⟩ ∧
    (st.port = none →
      command st env cmd k =
        ⟨Except.ok "Unable to send command, no open connection", [], k⟩) ∧
    (¬ st.port = none →
      command st env cmd k = ⟨Except.error Err.notConnected, [], k⟩) := by
  refine ⟨?_, ?_, ?_⟩
  · unfold send_command
    rw [if_pos hser]
  · intro hp
    unfold command
    rw [commandAux, if_pos hp]
  · intro hp
    exact commandAux_notConn st env hser hp _ _ k rfl

/-- C3 witness: a never-connected session with the default port. -/
theorem claim3_witness :
    serOpen stClosed = false ∧
    (send_command stClosed envW "TP A" 0 = ⟨Except.error Err.notConnected, [], 0⟩ ∧
     (stClosed.port = none →
       command stClosed envW "TP A" 0 =
         ⟨Except.ok "Unable to send command, no open connection", [], 0⟩) ∧
     (¬ stClosed.port = none →
       command stClosed envW "TP A" 0 = ⟨Except.error Err.notConnected, [], 0⟩)) :=
  ⟨by decide, claim3_amended stClosed envW "TP A" 0 (by decide)⟩

/-- C4: on the undecodable response byte 0xFF, `send_command`'s strict
decode raises, so the encoding error is propagated to the caller
instead of being discarded locally. -/
theorem claim4_strict_decode_propagates :
    utf8Decode (envBad 0) = none ∧
    send_command stW envBad "TP A" 0 =
      ⟨Except.error Err.encodingError,
       [Ev.write (pyStrip "TP A" ++ "\r"), Ev.read 1000], 1⟩ := by
  decide

/-- C5 counterexample: with `linaxis = "A B C D"`, `angaxis = ""` and
`maxspeed = 500`, the built maxspeed command has 4 segments, yet
`command_config` dispatches it through `send_command` as one single
wire transaction: the §4.2 splitting rule (which would split a
4-segment command) is not applied. -/
theorem claim5_counterexample :
    commandConfigSteps cfg5 = ["SPA=500;SPB=500;SPC=500;SPD=500"] ∧
    (pySplitSemi "SPA=500;SPB=500;SPC=500;SPD=500").length = 4 ∧
    writesOf (commandConfigRun st5 envW 0).trace =
      ["SPA=500;SPB=500;SPC=500;SPD=500" ++ "\r"] := by
  decide

/-- C5 (amended): when `maxspeed` is present, configuration application
builds the combined `SP<axis>=<maxspeed>` command over `linaxis` then
`angaxis` with the trailing separator stripped (for linaxis "A B",
angaxis "C", maxspeed 500 this is `SPA=500;SPB=500;SPC=500`), and sends
it through `send_command` as exactly one wire transaction regardless of
its segment count: the §4.2 splitting rule is not applied. -/
theorem claim5_amended (st : Session) (env : Nat → List Nat) (cfg : GalilCfg)
    (ms : Int) (k : Nat) (hms : cfg.maxspeed = some ms)
    (hne : speedComm cfg ms ≠ "") (hser : serOpen st = true) :
    speedPart cfg = [(speedComm cfg ms).dropRight 1] ∧
    writesOf (sendSeq st env (speedPart cfg) k).trace =
      [pyStrip ((speedComm cfg ms).dropRight 1) ++ "\r"] ∧
    speedComm cfg5b 500 = "SPA=500;SPB=500;SPC=500;" ∧
    speedPart cfg5b = ["SPA=500;SPB=500;SPC=500"] := by
  have hsp : speedPart cfg = [(speedComm cfg ms).dropRight 1] := by
    unfold speedPart
    rw [hms]
    simp [hne]
  have hnser : ¬ (serOpen st = false) := by
    rw [hser]
    simp
  refine ⟨hsp, ?_, by decide, by decide⟩
  rw [hsp]
  rcases hdec : utf8Decode (env k) with _ | cs <;>
    simp [sendSeq, send_command, hdec, hnser, writesOf]

/-- C5 witness: the spec's maxspeed example on a connected session. -/
theorem claim5_witness :
    cfg5b.maxspeed = some 500 ∧ speedComm cfg5b 500 ≠ "" ∧ serOpen stW = true ∧
    (speedPart cfg5b = [(speedComm cfg5b 500).dropRight 1] ∧
     writesOf (sendSeq stW envW (speedPart cfg5b) 0).trace =
       [pyStrip ((speedComm cfg5b 500).dropRight 1) ++ "\r"] ∧
     speedComm cfg5b 500 = "SPA=500;SPB=500;SPC=500;" ∧
     speedPart cfg5b = ["SPA=500;SPB=500;SPC=500"]) :=
  ⟨by decide, by decide, by decide,
   claim5_amended stW envW cfg5b 500 0 (by decide) (by decide) (by decide)⟩

/-- C6: configuration application performs its steps in the fixed order
confcomm, per-axis init A, B, C, D, indexcomm, maxspeed; a step whose
key is absent or blank contributes nothing (a skip, never an error),
and removing an earlier step's key leaves the later steps' commands
unchanged. -/
theorem claim6_config_order (cfg : GalilCfg) :
    commandConfigSteps cfg =
      confPart cfg ++ initPart cfg ++ indexPart cfg ++ speedPart cfg ∧
    (cfg.confcomm = none → confPart cfg = []) ∧
    (∀ s, cfg.confcomm = some s → pyStrip s = "" → confPart cfg = []) ∧
    (cfg.initcommA = none → initAxisPart cfg.initcommA = []) ∧
    (∀ s, cfg.initcommA = some s → pyStrip s = "" → initAxisPart cfg.initcommA = []) ∧
    (cfg.indexcomm = none → indexPart cfg = []) ∧
    (∀ s, cfg.indexcomm = some s → pyStrip s = "" → indexPart cfg = []) ∧
    (cfg.maxspeed = none → speedPart cfg = []) ∧
    commandConfigSteps { cfg with confcomm := none } =
      initPart cfg ++ indexPart cfg ++ speedPart cfg := by
  have hdec : ∀ c : GalilCfg, commandConfigSteps c =
      confPart c ++ initPart c ++ indexPart c ++ speedPart c := by
    intro c
    obtain ⟨w, vb, cc, ia, ib, ic, idd, xc, msp, lin, ang⟩ := c
    cases cc <;> cases ia <;> cases ib <;> cases ic <;> cases idd <;> cases xc <;>
      cases msp <;>
      simp [commandConfigSteps, confPart, initPart, initAxisPart, indexPart, speedPart,
        speedComm, List.append_assoc]
  refine ⟨hdec cfg, ?_, ?_, ?_, ?_, ?_, ?_, ?_, ?_⟩
  · intro h
    simp [confPart, h]
    decide
  · intro s hs hblank
    simp [confPart, hs, hblank]
  · intro h
    simp [initAxisPart, h]
  · intro s hs hblank
    simp [initAxisPart, hs, hblank]
  · intro h
    simp [indexPart, h]
  · intro s hs hblank
    simp [indexPart, hs, hblank]
  · intro h
    simp [speedPart, h]
  · rw [hdec { cfg with confcomm := none }]
    have hcp : confPart { cfg with confcomm := none } = [] := by
      simp [confPart]
      decide
    rw [hcp]
    simp only [List.nil_append]
    rfl

/-- C6 witness: a configuration with `confcomm` absent but `initcommA`
present and non-blank. -/
theorem claim6_witness :
    commandConfigSteps cfg6 =
      confPart cfg6 ++ initPart cfg6 ++ indexPart cfg6 ++ speedPart cfg6 ∧
    confPart cfg6 = [] ∧
    speedPart cfg6 = [] ∧
    commandConfigSteps { cfg6 with confcomm := none } =
      initPart cfg6 ++ indexPart cfg6 ++ speedPart cfg6 :=
  ⟨(claim6_config_order cfg6).1,
   (claim6_config_order cfg6).2.1 rfl,
   (claim6_config_order cfg6).2.2.2.2.2.2.2.1 rfl,
   (claim6_config_order cfg6).2.2.2.2.2.2.2.2⟩

/-- C7: `command_rawsignal` with only an axis supplied produces the
bare verb, not `<verb><axis>`: the axis-only assignment in the source
is dead because the following if/elif/else chain always reassigns the
command string.  The other three argument combinations do match the
spec's table. -/
theorem claim7_rawsignal_axis_dropped :
    command_rawsignal "SH" (some "A") none = "SH" ∧
    command_rawsignal "SH" (some "A") none ≠ "SHA" ∧
    command_rawsignal "SH" (some "A") (some "5") = "SHA = 5" ∧
    command_rawsignal "SH" none (some "5") = "SH = 5" ∧
    command_rawsignal "SH" none none = "SH" := by
  decide

/-- C8: `disconnect` is idempotent and total on session state: it never
fails (it is a total function on `Session`), after it the handle is
gone and the session is closed, a second call changes nothing, and
calling it on a never-opened session is a no-op. -/
theorem claim8_disconnect_idempotent (st : Session) :
    (disconnect st).ser = none ∧
    serOpen (disconnect st) = false ∧
    disconnect (disconnect st) = disconnect st ∧
    disconnect { st with ser := none } = { st with ser := none } := by
  obtain ⟨port, ser, cfg⟩ := st
  cases ser <;> simp [disconnect, serOpen]

/-- C9: `move_absolute('A', 1000)` builds exactly `PA A=1000;BG A`, a
2-segment logical command, and dispatches it as a single wire write
with no split (one write, one read). -/
theorem claim9_move_absolute (st : Session) (env : Nat → List Nat) (k : Nat)
    (hser : serOpen st = true) :
    ("PA " ++ "A" ++ "=" ++ toString (1000 : Int) ++ ";BG " ++ "A") = "PA A=1000;BG A" ∧
    (pySplitSemi "PA A=1000;BG A").length = 2 ∧
    writesOf (move_absolute st env "A" 1000 k).trace = ["PA A=1000;BG A" ++ "\r"] ∧
    (move_absolute st env "A" 1000 k).reads = k + 1 := by
  have hnser : ¬ (serOpen st = false) := by
    rw [hser]
    simp
  have hstrip : pyStrip "PA A=1000;BG A" = "PA A=1000;BG A" := by decide
  have hcmd : ("PA " ++ "A" ++ "=" ++ toString (1000 : Int) ++ ";BG " ++ "A") =
      "PA A=1000;BG A" := by decide
  refine ⟨hcmd, by decide, ?_, ?_⟩ <;>
  · unfold move_absolute
    rw [hcmd]
    rcases hdecode : utf8Decode (env k) with _ | cs <;>
      simp [send_command, hdecode, hnser, writesOf, hstrip]

/-- C9 witness: a connected session. -/
theorem claim9_witness :
    serOpen stW = true ∧
    (("PA " ++ "A" ++ "=" ++ toString (1000 : Int) ++ ";BG " ++ "A") = "PA A=1000;BG A" ∧
     (pySplitSemi "PA A=1000;BG A").length = 2 ∧
     writesOf (move_absolute stW envW "A" 1000 0).trace = ["PA A=1000;BG A" ++ "\r"] ∧
     (move_absolute stW envW "A" 1000 0).reads = 0 + 1) :=
  ⟨by decide, claim9_move_absolute stW envW 0 (by decide)⟩

/-- The error messages `setvalue` builds are never empty. -/
theorem quoted_ne_empty (v s : String) : "\"" ++ v ++ s ≠ "" := by
  intro h
  have h2 := congrArg String.data h
  rw [String.data_append, String.data_append] at h2
  rw [show ("\"" : String).data = ['"'] from rfl,
    show ("" : String).data = [] from rfl] at h2
  simp at h2

/-- C10: `setvalue` either updates the entry and returns the empty
string, or leaves the entry unchanged and returns a non-empty error
message; a bool entry rejects any word outside the recognized
true/false lists, a non-bool entry rejects any value whose conversion
to the entry's current type fails, and a str entry always accepts. -/
theorem claim10_setvalue (valorig : PyVal) (value : String) :
    ((setvalue valorig value).2 = "" ∨
      ((setvalue valorig value).2 ≠ "" ∧ (setvalue valorig value).1 = valorig)) ∧
    (∀ b, valorig = PyVal.pbool b →
      pyLower value ∉ booltrue → pyLower value ∉ boolfalse →
      (setvalue valorig value).2 ≠ "" ∧ (setvalue valorig value).1 = valorig) ∧
    (∀ n, valorig = PyVal.pint n → pyToInt value = none →
      (setvalue valorig value).2 ≠ "" ∧ (setvalue valorig value).1 = valorig) ∧
    (∀ q, valorig = PyVal.pfloat q → pyToFloat value = none →
      (setvalue valorig value).2 ≠ "" ∧ (setvalue valorig value).1 = valorig) ∧
    (∀ s, valorig = PyVal.pstr s →
      (setvalue valorig value).1 = PyVal.pstr value ∧ (setvalue valorig value).2 = "") := by
  cases valorig with
  | pbool b =>
    refine ⟨?_, ?_, fun n hn => PyVal.noConfusion hn, fun q hq => PyVal.noConfusion hq,
            fun s hs => PyVal.noConfusion hs⟩
    · by_cases h1 : pyLower value ∈ booltrue
      · exact Or.inl (by simp [setvalue, h1])
      · by_cases h2 : pyLower value ∈ boolfalse
        · exact Or.inl (by simp [setvalue, h1, h2])
        · have hset : setvalue (PyVal.pbool b) value =
              (PyVal.pbool b, "\"" ++ value ++ "\" is invalid for type bool") := by
            simp only [setvalue, if_neg h1, if_neg h2]
          rw [hset]
          exact Or.inr ⟨quoted_ne_empty _ _, rfl⟩
    · intro b' hb hnt hnf
      have hset : setvalue (PyVal.pbool b) value =
          (PyVal.pbool b, "\"" ++ value ++ "\" is invalid for type bool") := by
        simp only [setvalue, if_neg hnt, if_neg hnf]
      rw [hset]
      exact ⟨quoted_ne_empty _ _, rfl⟩
  | pint n =>
    refine ⟨?_, fun b hb => PyVal.noConfusion hb, ?_, fun q hq => PyVal.noConfusion hq,
            fun s hs => PyVal.noConfusion hs⟩
    · rcases hc : pyToInt value with _ | m
      · have hset : setvalue (PyVal.pint n) value =
            (PyVal.pint n, "\"" ++ value ++ "\" is invalid type for int") := by
          simp only [setvalue, hc]
        rw [hset]
        exact Or.inr ⟨quoted_ne_empty _ _, rfl⟩
      · exact Or.inl (by simp [setvalue, hc])
    · intro n' hn hcnone
      have hset : setvalue (PyVal.pint n) value =
          (PyVal.pint n, "\"" ++ value ++ "\" is invalid type for int") := by
        simp only [setvalue, hcnone]
      rw [hset]
      exact ⟨quoted_ne_empty _ _, rfl⟩
  | pfloat q =>
    refine ⟨?_, fun b hb => PyVal.noConfusion hb, fun n hn => PyVal.noConfusion hn, ?_,
            fun s hs => PyVal.noConfusion hs⟩
    · rcases hc : pyToFloat value with _ | m
      · have hset : setvalue (PyVal.pfloat q) value =
            (PyVal.pfloat q, "\"" ++ value ++ "\" is invalid type for float") := by
          simp only [setvalue, hc]
        rw [hset]
        exact Or.inr ⟨quoted_ne_empty _ _, rfl⟩
      · exact Or.inl (by simp [setvalue, hc])
    · intro q' hq hcnone
      have hset : setvalue (PyVal.pfloat q) value =
          (PyVal.pfloat q, "\"" ++ value ++ "\" is invalid type for float") := by
        simp only [setvalue, hcnone]
      rw [hset]
      exact ⟨quoted_ne_empty _ _, rfl⟩
  | pstr s =>
    exact ⟨Or.inl (by simp [setvalue]), fun b hb => PyVal.noConfusion hb,
           fun n hn => PyVal.noConfusion hn, fun q hq => PyVal.noConfusion hq,
           fun s' hs => ⟨by simp [setvalue], by simp [setvalue]⟩⟩

/-- C10 witness: a bool entry and the unrecognized word "maybe". -/
theorem claim10_witness :
    (setvalue (PyVal.pbool true) "maybe").2 ≠ "" ∧
    (setvalue (PyVal.pbool true) "maybe").1 = PyVal.pbool true :=
  (claim10_setvalue (PyVal.pbool true) "maybe").2.1 true rfl (by decide) (by decide)

end Galil
